import Mathlib

/-!
Shallow embedding of the client-side session synchronization engine of the
Company-Research-agent repository, centred on `src/frontend/src/App.jsx`
(the current client) with the earlier client version `src/unnamed/part_001`
modelled where a claim cites it.

The embedding translates the React component's state hooks into a record
`ClientState`, the WebSocket message handler `handleWsMessage` into a pure
transition function on that record, and the outbound send / edit-submit /
session-switch operations into further pure functions.  Side effects with no
bearing on client state (console logging, scrolling, speech synthesis, the
actual network send, and the `fetchSessions` refresh of the sidebar list) are
not modelled.
-/

namespace CompanyResearch

/-- JSON-like value used for document-section contents and payloads
(`data.updated_content`, the values of plan objects).  The client stores these
opaquely; rendering probes their shape at display time. -/
inductive Val where
  | str : String → Val
  | num : Int → Val
  | arr : List Val → Val
  | obj : List (String × Val) → Val

/-- A conflict record as attached to a system message by the `conflicts`
frame: `{ topic, suggested_resolution }`. -/
structure Conflict where
  topic : String
  suggested_resolution : String
deriving DecidableEq

/-- Message roles appearing in App.jsx: `'user'`, `'assistant'`, `'system'`,
`'error'`. -/
inductive Role where
  | user
  | assistant
  | system
  | error
deriving DecidableEq

/-- One chat message: `{ role, content }`, optionally carrying a conflict
list (the `conflicts` frame attaches one). -/
structure Msg where
  role : Role
  content : String
  conflicts : Option (List Conflict)
deriving DecidableEq

/-- The Progress pair set by a `status` frame:
`setProgress({ percent: data.progress, message: data.message })`. -/
structure ProgressInfo where
  percent : Int
  message : String
deriving DecidableEq

/-- A plan ("Document") as the client stores it: a JS object, i.e. an ordered
association of string keys to values.  `company_name` plus the eight named
sections in the full document. -/
def PlanObj : Type := List (String × Val)

/-- An inbound WebSocket frame as `handleWsMessage` reads it.  The `type`
field is an arbitrary string (the JS `switch` dispatches on it); the other
fields mirror the properties the handler accesses per case, with inert
defaults standing for JS `undefined` where the handler would not read them.
`sectionKey` embeds `data.section` (Lean reserves the word).  `full_plan` is
genuinely optional in the source (`if (data.full_plan)`). -/
structure Frame where
  type : String
  content : String := ""
  message : String := ""
  progress : Int := 0
  conflicts : List Conflict := []
  plan : PlanObj := []
  sectionKey : String := ""
  updated_content : Val := Val.str ""
  full_plan : Option PlanObj := none

/-- The client state of the `App` component relevant to the protocol:
`messages`, `input`, `isLoading` ("generation in flight"), `progress`,
`plan`, `showPlan`, `editingSection` / `editInput` / `isEditLoading` (the
edit transaction), and `buffer` embedding the accumulation ref
`currentResponseRef.current`. -/
structure ClientState where
  messages : List Msg
  input : String
  editInput : String
  isLoading : Bool
  progress : Option ProgressInfo
  plan : Option PlanObj
  showPlan : Bool
  editingSection : Option String
  isEditLoading : Bool
  buffer : String

/-- Mirrors `newMsgs.length > 0 && newMsgs[newMsgs.length - 1].role ===
'assistant'` from the `message` case. -/
def lastIsAssistant (ms : List Msg) : Bool :=
  match ms.getLast? with
  | some m => match m.role with
    | Role.assistant => true
    | _ => false
  | none => false

/-- Mirrors `newMsgs[newMsgs.length - 1].content = currentResponseRef.current`:
replace the content of the last element, keeping every other field and every
other element. -/
def setLastContent (c : String) : List Msg → List Msg
  | [] => []
  | [m] => [{ m with content := c }]
  | m :: m' :: rest => m :: setLastContent c (m' :: rest)

/-- Mirrors the JS object spread with computed key `{...prev,
[data.section]: data.updated_content}` on an association list: replace the
value at the key if present, else append the new key at the end. -/
def setKey (s : String) (v : Val) : PlanObj → PlanObj
  | [] => [(s, v)]
  | (k, w) :: rest => if k = s then (k, v) :: rest else (k, w) :: setKey s v rest

/-- Key lookup in a plan object (JS property access `plan[k]`). -/
def lookupKey (s : String) : PlanObj → Option Val
  | [] => none
  | (k, w) :: rest => if k = s then some w else lookupKey s rest

/-- The WebSocket message handler `handleWsMessage` of App.jsx as a pure
transition on `ClientState`.  Each branch mirrors one `case` of the JS
`switch (data.type)`; the final `else` is the absent `default`.  The
`fetchSessions()` calls in the `message` and `plan_complete` cases touch only
the sidebar session list, which is outside `ClientState`. -/
def handleWsMessage (data : Frame) (st : ClientState) : ClientState :=
  if data.type = "message" then
    let buf := st.buffer ++ data.content
    { st with
      buffer := buf,
      messages :=
        if lastIsAssistant st.messages then setLastContent buf st.messages
        else st.messages ++ [⟨Role.assistant, data.content, none⟩] }
  else if data.type = "status" then
    { st with progress := some ⟨data.progress, data.message⟩ }
  else if data.type = "conflicts" then
    { st with messages :=
        st.messages ++ [⟨Role.system, "Conflicts found", some data.conflicts⟩] }
  else if data.type = "plan_complete" then
    { st with
      plan := some data.plan,
      showPlan := true,
      messages := st.messages ++ [⟨Role.system, "Plan generated.", none⟩] }
  else if data.type = "section_updated" then
    { st with
      plan :=
        match data.full_plan with
        | some fp => some fp
        | none => some (setKey data.sectionKey data.updated_content (st.plan.getD [])),
      editingSection := none,
      isEditLoading := false,
      messages := st.messages ++
        [⟨Role.system,
          "Section \"" ++ data.sectionKey ++ "\" updated successfully.", none⟩] }
  else if data.type = "done" then
    { st with isLoading := false, progress := none, isEditLoading := false, buffer := "" }
  else if data.type = "error" then
    { st with
      messages := st.messages ++ [⟨Role.error, data.message, none⟩],
      isLoading := false,
      isEditLoading := false,
      editingSection := none }
  else st

/-- JS `String.prototype.trim`: strip leading and trailing whitespace.
Implemented structurally (drop whitespace from the front, reverse, drop
again, reverse) so that it evaluates inside the kernel, unlike the
well-founded `String.trim` of the core library. -/
def strTrim (s : String) : String :=
  ⟨((s.data.dropWhile Char.isWhitespace).reverse.dropWhile Char.isWhitespace).reverse⟩

/-- The outbound send `sendMessage` of App.jsx: guard `!input.trim() ||
!wsRef.current`, append the user message, set loading, clear the
accumulation ref, clear the input.  `wsConnected` stands for
`wsRef.current` being non-null. -/
def sendMessage (wsConnected : Bool) (st : ClientState) : ClientState :=
  if strTrim st.input = "" ∨ wsConnected = false then st
  else
    { st with
      messages := st.messages ++ [⟨Role.user, st.input, none⟩],
      isLoading := true,
      buffer := "",
      input := "" }

/-- The edit submission `submitEdit` of App.jsx: guard `!editInput.trim() ||
!wsRef.current`, set the edit-loading flag, clear the edit input.  The
outbound `edit_section` frame itself is a transport effect. -/
def submitEdit (wsConnected : Bool) (st : ClientState) : ClientState :=
  if strTrim st.editInput = "" ∨ wsConnected = false then st
  else { st with isEditLoading := true, editInput := "" }

/-- The synchronous state resets performed by the session-switch effect's
`loadSessionData` in App.jsx: `setIsLoading(false); setPlan(null);
setShowPlan(false)`.  The subsequent history / plan fetches are Resource
Client responses. -/
def resetOnSwitch (st : ClientState) : ClientState :=
  { st with isLoading := false, plan := none, showPlan := false }

/-- Folding a list of inbound frames through the handler in delivery order. -/
def foldFrames (fs : List Frame) (st : ClientState) : ClientState :=
  fs.foldl (fun s f => handleWsMessage f s) st

/-- A `message` delta frame carrying content `d`. -/
def msgFrame (d : String) : Frame := { type := "message", content := d }

/-- Concatenation of a list of deltas in delivery order. -/
def concatAll : List String → String
  | [] => ""
  | d :: rest => d ++ concatAll rest

/-! Helper lemmas about the embedded operations. -/

theorem setLastContent_cons_shape (c : String) (b : Msg) (t : List Msg) :
    ∃ x xs, setLastContent c (b :: t) = x :: xs := by
  cases t with
  | nil => exact ⟨{ b with content := c }, [], rfl⟩
  | cons b' t' => exact ⟨b, setLastContent c (b' :: t'), rfl⟩

theorem setLastContent_getLast? (c : String) : ∀ (ms : List Msg) (m : Msg),
    ms.getLast? = some m →
    (setLastContent c ms).getLast? = some { m with content := c }
  | [], m, hm => by simp at hm
  | [a], m, hm => by
      have ha : a = m := by simpa using hm
      subst ha
      simp [setLastContent]
  | a :: b :: t, m, hm => by
      rw [List.getLast?_cons_cons] at hm
      have ih := setLastContent_getLast? c (b :: t) m hm
      obtain ⟨x, xs, hx⟩ := setLastContent_cons_shape c b t
      show (a :: setLastContent c (b :: t)).getLast? = _
      rw [hx, List.getLast?_cons_cons, ← hx, ih]

theorem lastIsAssistant_of_getLast? (ms : List Msg) (m : Msg)
    (hm : ms.getLast? = some m) (hr : m.role = Role.assistant) :
    lastIsAssistant ms = true := by
  simp [lastIsAssistant, hm, hr]

theorem exists_of_lastIsAssistant (ms : List Msg)
    (h : lastIsAssistant ms = true) :
    ∃ m, ms.getLast? = some m ∧ m.role = Role.assistant := by
  unfold lastIsAssistant at h
  cases hm : ms.getLast? with
  | none => rw [hm] at h; simp at h
  | some m =>
    rw [hm] at h
    cases hr : m.role with
    | assistant => exact ⟨m, rfl, hr⟩
    | user => simp [hr] at h
    | system => simp [hr] at h
    | error => simp [hr] at h

theorem lookupKey_setKey (t s : String) (v : Val) : ∀ (p : PlanObj),
    lookupKey t (setKey s v p) = if t = s then some v else lookupKey t p
  | [] => by
      by_cases h : t = s
      · subst h; simp [setKey, lookupKey]
      · have h' : ¬ s = t := fun hh => h hh.symm
        simp [setKey, lookupKey, h, h']
  | (k, w) :: rest => by
      by_cases hks : k = s
      · subst hks
        by_cases htk : t = k
        · subst htk; simp [setKey, lookupKey]
        · have h2 : ¬ k = t := fun hh => htk hh.symm
          simp [setKey, lookupKey, htk, h2]
      · by_cases hkt : k = t
        · subst hkt
          simp [setKey, lookupKey, hks]
        · have ih := lookupKey_setKey t s v rest
          simp [setKey, lookupKey, hks, hkt, ih]

/-! Per-case dispatch equations for `handleWsMessage`, conditioned on the
frame's `type` string exactly as the JS `switch` is. -/

theorem handleWsMessage_message (f : Frame) (st : ClientState)
    (h : f.type = "message") :
    handleWsMessage f st =
      { st with
        buffer := st.buffer ++ f.content,
        messages :=
          if lastIsAssistant st.messages then
            setLastContent (st.buffer ++ f.content) st.messages
          else st.messages ++ [⟨Role.assistant, f.content, none⟩] } := by
  simp [handleWsMessage, h]

theorem handleWsMessage_status (f : Frame) (st : ClientState)
    (h : f.type = "status") :
    handleWsMessage f st = { st with progress := some ⟨f.progress, f.message⟩ } := by
  simp [handleWsMessage, h]

theorem handleWsMessage_conflicts (f : Frame) (st : ClientState)
    (h : f.type = "conflicts") :
    handleWsMessage f st =
      { st with messages :=
          st.messages ++ [⟨Role.system, "Conflicts found", some f.conflicts⟩] } := by
  simp [handleWsMessage, h]

theorem handleWsMessage_plan_complete (f : Frame) (st : ClientState)
    (h : f.type = "plan_complete") :
    handleWsMessage f st =
      { st with
        plan := some f.plan,
        showPlan := true,
        messages := st.messages ++ [⟨Role.system, "Plan generated.", none⟩] } := by
  simp [handleWsMessage, h]

theorem handleWsMessage_section_updated (f : Frame) (st : ClientState)
    (h : f.type = "section_updated") :
    handleWsMessage f st =
      { st with
        plan :=
          (match f.full_plan with
          | some fp => some fp
          | none => some (setKey f.sectionKey f.updated_content (st.plan.getD []))),
        editingSection := none,
        isEditLoading := false,
        messages := st.messages ++
          [⟨Role.system,
            "Section \"" ++ f.sectionKey ++ "\" updated successfully.", none⟩] } := by
  simp [handleWsMessage, h]

theorem handleWsMessage_done (f : Frame) (st : ClientState)
    (h : f.type = "done") :
    handleWsMessage f st =
      { st with
        isLoading := false
        progress := none
        isEditLoading := false
        buffer := "" } := by
  simp [handleWsMessage, h]

theorem handleWsMessage_error (f : Frame) (st : ClientState)
    (h : f.type = "error") :
    handleWsMessage f st =
      { st with
        messages := st.messages ++ [⟨Role.error, f.message, none⟩],
        isLoading := false,
        isEditLoading := false,
        editingSection := none } := by
  simp [handleWsMessage, h]

theorem handleWsMessage_default (f : Frame) (st : ClientState)
    (h1 : f.type ≠ "message") (h2 : f.type ≠ "status") (h3 : f.type ≠ "conflicts")
    (h4 : f.type ≠ "plan_complete") (h5 : f.type ≠ "section_updated")
    (h6 : f.type ≠ "done") (h7 : f.type ≠ "error") :
    handleWsMessage f st = st := by
  simp [handleWsMessage, h1, h2, h3, h4, h5, h6, h7]

theorem foldFrames_cons (f : Frame) (fs : List Frame) (st : ClientState) :
    foldFrames (f :: fs) st = foldFrames fs (handleWsMessage f st) := rfl

/-- Streaming invariant: if the last message is an assistant message whose
content equals the accumulation buffer, then folding further `message`
deltas keeps that shape, appending the concatenated deltas to both. -/
theorem deltas_extend (ds : List String) :
    ∀ (st : ClientState) (m : Msg),
    st.messages.getLast? = some m → m.role = Role.assistant → m.content = st.buffer →
    (foldFrames (ds.map msgFrame) st).buffer = st.buffer ++ concatAll ds ∧
    ∃ m', (foldFrames (ds.map msgFrame) st).messages.getLast? = some m' ∧
      m'.role = Role.assistant ∧ m'.content = st.buffer ++ concatAll ds := by
  induction ds with
  | nil =>
    intro st m hm hr hc
    simp only [List.map_nil, foldFrames, List.foldl_nil, concatAll, String.append_empty]
    exact ⟨trivial, m, hm, hr, hc⟩
  | cons d rest ih =>
    intro st m hm hr hc
    have hla := lastIsAssistant_of_getLast? st.messages m hm hr
    have hstep : handleWsMessage (msgFrame d) st =
        { st with
          buffer := st.buffer ++ d
          messages := setLastContent (st.buffer ++ d) st.messages } := by
      rw [handleWsMessage_message (msgFrame d) st rfl]
      simp [msgFrame, hla]
    have hlast := setLastContent_getLast? (st.buffer ++ d) st.messages m hm
    rw [List.map_cons, foldFrames_cons, hstep]
    have ihh := ih
      { st with
        buffer := st.buffer ++ d
        messages := setLastContent (st.buffer ++ d) st.messages }
      { m with content := st.buffer ++ d } hlast hr rfl
    obtain ⟨ihb, m', hl', hr', hc'⟩ := ihh
    refine ⟨?_, m', hl', hr', ?_⟩
    · rw [ihb]
      show (st.buffer ++ d) ++ concatAll rest = st.buffer ++ concatAll (d :: rest)
      rw [String.append_assoc]
      rfl
    · rw [hc']
      show (st.buffer ++ d) ++ concatAll rest = st.buffer ++ concatAll (d :: rest)
      rw [String.append_assoc]
      rfl

/-! Concrete states and frames used by witnesses and counterexamples. -/

/-- The initial component state: the `useState` / `useRef` initial values of
`App` (empty message list, empty inputs, nothing loading, no plan, empty
accumulation ref). -/
def st0 : ClientState :=
  { messages := []
    input := ""
    editInput := ""
    isLoading := false
    progress := none
    plan := none
    showPlan := false
    editingSection := none
    isEditLoading := false
    buffer := "" }

/-- A frame with an event type the client does not know
(`research_update`-style frames, or the `intent` type handled only by the
older client version). -/
def intentFrame : Frame := { type := "intent" }

/-- A state with one user message and no edit in flight. -/
def stIdle : ClientState := { st0 with messages := [⟨Role.user, "hi", none⟩] }

/-- A `section_updated` frame carrying only a per-section payload. -/
def secFrame : Frame :=
  { type := "section_updated"
    sectionKey := "leadership"
    updated_content := Val.str "new leadership content" }

/-- An `error` frame with the given `data.message`. -/
def errorFrame (m : String) : Frame := { type := "error", message := m }

/-- A state in which a generation and an edit are in flight and a `status`
frame has set Progress. -/
def stBusy : ClientState :=
  { st0 with
    isLoading := true
    progress := some ⟨40, "Searching news"⟩
    editingSection := some "leadership"
    isEditLoading := true }

/-- A small plan object with the company name and two sections. -/
def planW : PlanObj :=
  [("company_name", Val.str "Stripe"),
   ("overview", Val.str "payments"),
   ("leadership", Val.str "old leadership")]

/-- A state holding `planW` as the current document. -/
def stPlan : ClientState := { st0 with plan := some planW }

/-- A per-section `section_updated` frame for the `leadership` section. -/
def leadFrame : Frame :=
  { type := "section_updated"
    sectionKey := "leadership"
    updated_content := Val.str "adds CTO" }

/-- The bare `done` frame. -/
def doneFrame : Frame := { type := "done" }

/-- A `status` frame as in the spec scenario: percent 40, message
`Searching news`. -/
def statusFrame : Frame := { type := "status", progress := 40, message := "Searching news" }

/-- A state with text typed into the composition input. -/
def stTyped : ClientState := { st0 with input := "Research Stripe" }

/-- A mid-stream state: generation in flight with a partially accumulated
response buffer. -/
def stStream : ClientState := { stBusy with buffer := "Starting res" }

/-! Session-switch model (claim C1).  The `useEffect` keyed on `sessionId`
closes the previous session's socket in its cleanup and then opens a socket
for the new session, so after a switch exactly the new session's socket is
open.  Every socket ever created has the same registered callback
`ws.onmessage = (event) => handleWsMessage(JSON.parse(event.data))`. -/

/-- The client together with its transport bookkeeping: the active session
identifier, the sessions whose socket is currently open (not yet closed),
and the component state. -/
structure AppModel where
  active : String
  openSockets : List String
  st : ClientState

/-- Switching the active session to `b`: the effect cleanup closes the old
socket, the new effect opens `b`'s socket, and `loadSessionData`
synchronously resets `isLoading`, `plan` and `showPlan`
(`resetOnSwitch`). -/
def switchTo (b : String) (m : AppModel) : AppModel :=
  { active := b, openSockets := [b], st := resetOnSwitch m.st }

/-- What the registered `onmessage` callback of a socket does when the
platform invokes it with a frame: hand the parsed frame to the shared
`handleWsMessage`.  The session `sid` the socket was opened for is not
consulted — inbound frames carry no session identifier and the handler
performs no session check, exactly as in App.jsx. -/
def socketOnMessage (_sid : String) (f : Frame) (m : AppModel) : AppModel :=
  { m with st := handleWsMessage f m.st }

/-- Frame delivery under the transport discipline that a closed socket never
invokes its callback again: a frame arriving on `sid`'s socket reaches the
handler only while that socket is still open. -/
def deliverFrameFrom (sid : String) (f : Frame) (m : AppModel) : AppModel :=
  if sid ∈ m.openSockets then socketOnMessage sid f m else m

/-! Connection-setup model (claim C7). -/

/-- What a WebSocket setup fixes at creation time: the session it serves,
the URL, and the reconnection the `onclose` handler schedules (`none` when
the handler does not schedule one). -/
structure WsConn where
  session : String
  url : String
  reconnectDelayMs : Option Nat

/-- The connection opened by the session-switch effect of App.jsx:
`new WebSocket(WS_URL + "/ws/" + sessionId)` whose `onclose` handler is
`() => console.log('Disconnected')` — it only logs and schedules no
reconnection. -/
def appConnect (sid : String) : WsConn :=
  { session := sid, url := "/ws/" ++ sid, reconnectDelayMs := none }

/-- The `connectWs` closure of the earlier client version
(src/unnamed/part_001): its `onclose` handler runs
`setTimeout(connectWs, 2000)`, scheduling a reconnect to the same captured
session after a fixed 2000 ms on every closure, deliberate or not. -/
def connectWs (sid : String) : WsConn :=
  { session := sid, url := "/ws/" ++ sid, reconnectDelayMs := some 2000 }

/-! Document-fullness model (claim C8). -/

/-- The fixed set of named sections of a full Document, as rendered and
edited by the plan panel of App.jsx. -/
def sectionKeys : List String :=
  ["overview", "business_model", "recent_news", "leadership",
   "market_position", "financial_health", "pain_points", "engagement_strategy"]

/-- A plan object is full when every named section is present. -/
def fullDoc (p : PlanObj) : Bool :=
  sectionKeys.all (fun k => (lookupKey k p).isSome)

/-- The claimed Document invariant: fully absent, or fully present. -/
def docInvB (st : ClientState) : Bool :=
  match st.plan with
  | none => true
  | some p => fullDoc p

/-- A full plan object with the company name and all eight sections. -/
def planFull : PlanObj :=
  [("company_name", Val.str "Stripe"),
   ("overview", Val.str "o"), ("business_model", Val.str "b"),
   ("recent_news", Val.arr []), ("leadership", Val.str "l"),
   ("market_position", Val.str "m"), ("financial_health", Val.str "f"),
   ("pain_points", Val.arr []), ("engagement_strategy", Val.str "e")]

/-- A state holding the full document `planFull`. -/
def stFull : ClientState := { st0 with plan := some planFull }

/-! Voice-capture model (claim C9).  The `recognition.onresult` handler of
App.jsx iterates the results of one recognition event, concatenating final
and interim transcripts separately; a non-empty final concatenation that
differs from `finalTranscriptBuffer` is committed to the input. -/

/-- One recognition result: `event.results[i][0].transcript` together with
`event.results[i].isFinal`. -/
structure SpeechRes where
  transcript : String
  isFinal : Bool
deriving DecidableEq

/-- The voice-relevant state: the composition input and the
`finalTranscriptBuffer` closure variable (reset to `''` on start). -/
structure VoiceState where
  input : String
  finalTranscriptBuffer : String
deriving DecidableEq

/-- Concatenation of the final transcripts of one event's new results, in
order (`newFinalTranscript += transcript`). -/
def newFinalOf (rs : List SpeechRes) : String :=
  rs.foldl (fun a r => if r.isFinal then a ++ r.transcript else a) ""

/-- Committing a finalized transcript to the input:
`trimmedPrev + separator + newFinalTranscript.trim()` with a single-space
separator when the trimmed previous input is non-empty. -/
def commitText (prev nf : String) : String :=
  strTrim prev ++ (if strTrim prev = "" then "" else " ") ++ strTrim nf

/-- The `recognition.onresult` handler: commit the event's new final
concatenation when it is non-empty and differs from the last-committed one;
interim transcripts are only logged. -/
def onresult (rs : List SpeechRes) (vs : VoiceState) : VoiceState :=
  let nf := newFinalOf rs
  if nf ≠ "" ∧ nf ≠ vs.finalTranscriptBuffer then
    { input := commitText vs.input nf, finalTranscriptBuffer := nf }
  else vs

/-- The transcripts committed to the input over a sequence of recognition
events, in order. -/
def commitsOf : List (List SpeechRes) → VoiceState → List String
  | [], _ => []
  | rs :: evs, vs =>
    let nf := newFinalOf rs
    if nf ≠ "" ∧ nf ≠ vs.finalTranscriptBuffer then
      nf :: commitsOf evs (onresult rs vs)
    else commitsOf evs (onresult rs vs)

/-- The voice state right after `recognition.onstart`. -/
def vs0 : VoiceState := ⟨"", ""⟩

/-- A recognition event finalizing the utterance `a`. -/
def evA : List SpeechRes := [⟨"a", true⟩]

/-- A recognition event finalizing the utterance `b`. -/
def evB : List SpeechRes := [⟨"b", true⟩]

/-- A recognition event carrying only an interim result. -/
def evInterim : List SpeechRes := [⟨"uh", false⟩]

/-! Helper lemmas for C8 and C9. -/

theorem docInvB_congr (st st' : ClientState) (h : st'.plan = st.plan) :
    docInvB st' = docInvB st := by
  unfold docInvB
  rw [h]

theorem fullDoc_setKey (p : PlanObj) (s : String) (v : Val)
    (h : fullDoc p = true) : fullDoc (setKey s v p) = true := by
  unfold fullDoc at h ⊢
  rw [List.all_eq_true] at h ⊢
  intro k hk
  rw [lookupKey_setKey]
  by_cases hks : k = s
  · simp [hks]
  · simp only [hks, if_false]
    exact h k hk

theorem foldl_final_const (rs : List SpeechRes) :
    (∀ r ∈ rs, r.isFinal = false) →
    ∀ acc : String,
      rs.foldl (fun a r => if r.isFinal then a ++ r.transcript else a) acc = acc := by
  induction rs with
  | nil => intro _ acc; rfl
  | cons r t ih =>
    intro h acc
    have hr : r.isFinal = false := h r (List.mem_cons_self r t)
    rw [List.foldl_cons]
    simp only [hr, Bool.false_eq_true, if_false]
    exact ih (fun x hx => h x (List.mem_cons_of_mem r hx)) acc

theorem newFinalOf_interim (rs : List SpeechRes)
    (h : ∀ r ∈ rs, r.isFinal = false) : newFinalOf rs = "" :=
  foldl_final_const rs h ""

theorem commitsOf_chain (evs : List (List SpeechRes)) :
    ∀ vs : VoiceState,
    List.Chain (fun x y => x ≠ y) vs.finalTranscriptBuffer (commitsOf evs vs) := by
  induction evs with
  | nil => intro vs; exact List.Chain.nil
  | cons rs evs ih =>
    intro vs
    by_cases hcond : newFinalOf rs ≠ "" ∧ newFinalOf rs ≠ vs.finalTranscriptBuffer
    · have hcommits : commitsOf (rs :: evs) vs =
          newFinalOf rs :: commitsOf evs (onresult rs vs) := by
        simp only [commitsOf]
        rw [if_pos hcond]
      have hbuf : (onresult rs vs).finalTranscriptBuffer = newFinalOf rs := by
        simp only [onresult]
        rw [if_pos hcond]
      rw [hcommits]
      apply List.Chain.cons
      · exact fun h => hcond.2 h.symm
      · have hrest := ih (onresult rs vs)
        rw [hbuf] at hrest
        exact hrest
    · have hcommits : commitsOf (rs :: evs) vs = commitsOf evs (onresult rs vs) := by
        simp only [commitsOf]
        rw [if_neg hcond]
      have hvs : onresult rs vs = vs := by
        simp only [onresult]
        rw [if_neg hcond]
      rw [hcommits, hvs]
      exact ih vs

/-! Claim theorems. -/

/-- C10: any inbound frame whose `type` is not one of the seven cases of the
`switch` in `handleWsMessage` (including absent or unknown types such as
`intent` or `research_update`) leaves the entire client state unchanged:
the JS `switch` has no `default` case. -/
theorem c10_unknown_frame_noop (st : ClientState) (f : Frame)
    (h : f.type ∉ ["message", "status", "conflicts", "plan_complete",
                   "section_updated", "done", "error"]) :
    handleWsMessage f st = st := by
  simp only [List.mem_cons, List.mem_singleton, not_or, List.not_mem_nil,
    not_false_iff, and_true] at h
  obtain ⟨h1, h2, h3, h4, h5, h6, h7⟩ := h
  exact handleWsMessage_default f st h1 h2 h3 h4 h5 h6 h7

/-- Witness for C10 at the `intent` frame type and the initial state. -/
theorem c10_witness : handleWsMessage intentFrame st0 = st0 :=
  c10_unknown_frame_noop st0 intentFrame (by decide)

/-- C5: processing a `section_updated` frame always resolves the edit
transaction (`setEditingSection(null)`, `setIsEditLoading(false)`) and
appends exactly one system confirmation message; both effects are
unconditional in the handler, so they also occur when no edit transaction is
in the submitting state. -/
theorem c5_section_updated_resolves_edit (st : ClientState) (f : Frame)
    (h : f.type = "section_updated") :
    (handleWsMessage f st).editingSection = none ∧
    (handleWsMessage f st).isEditLoading = false ∧
    (handleWsMessage f st).messages =
      st.messages ++
        [⟨Role.system,
          "Section \"" ++ f.sectionKey ++ "\" updated successfully.", none⟩] := by
  rw [handleWsMessage_section_updated f st h]
  exact ⟨rfl, rfl, rfl⟩

/-- Witness for C5: a duplicate-style delivery, arriving while no edit is in
flight (`editingSection = none`, `isEditLoading = false` in `stIdle`), still
merges and still appends exactly one confirmation message. -/
theorem c5_witness :
    (handleWsMessage secFrame stIdle).editingSection = none ∧
    (handleWsMessage secFrame stIdle).isEditLoading = false ∧
    (handleWsMessage secFrame stIdle).messages =
      stIdle.messages ++
        [⟨Role.system, "Section \"leadership\" updated successfully.", none⟩] :=
  c5_section_updated_resolves_edit stIdle secFrame rfl

/-- C6 counterexample: the claim says an `error` event clears Progress, but
the `error` case of `handleWsMessage` never calls `setProgress(null)`: from
`stBusy`, whose Progress is `(40, "Searching news")`, processing an `error`
frame leaves Progress set to that same value rather than `null`. -/
theorem c6_counterexample :
    (handleWsMessage (errorFrame "Research failed") stBusy).progress =
      some ⟨40, "Searching news"⟩ ∧
    (handleWsMessage (errorFrame "Research failed") stBusy).progress ≠ none := by
  decide

/-- C6 (amended): processing an `error` frame appends exactly one error-role
message carrying `data.message`, sets the generation-in-flight flag false and
resolves the edit transaction, but leaves Progress exactly as it was; the
stale Progress value is merely never rendered because rendering is gated on
the in-flight flag. -/
theorem c6_error_amended (st : ClientState) (f : Frame) (h : f.type = "error") :
    (handleWsMessage f st).messages =
      st.messages ++ [⟨Role.error, f.message, none⟩] ∧
    (handleWsMessage f st).isLoading = false ∧
    (handleWsMessage f st).isEditLoading = false ∧
    (handleWsMessage f st).editingSection = none ∧
    (handleWsMessage f st).progress = st.progress := by
  rw [handleWsMessage_error f st h]
  exact ⟨rfl, rfl, rfl, rfl, rfl⟩

/-- Witness for the amended C6 at a concrete frame and state. -/
theorem c6_witness :
    (handleWsMessage (errorFrame "Research failed") stBusy).messages =
      stBusy.messages ++ [⟨Role.error, "Research failed", none⟩] ∧
    (handleWsMessage (errorFrame "Research failed") stBusy).isLoading = false ∧
    (handleWsMessage (errorFrame "Research failed") stBusy).isEditLoading = false ∧
    (handleWsMessage (errorFrame "Research failed") stBusy).editingSection = none ∧
    (handleWsMessage (errorFrame "Research failed") stBusy).progress = stBusy.progress :=
  c6_error_amended stBusy (errorFrame "Research failed") rfl

/-- C4: for an existing Document, a `section_updated` frame with a
full-document payload replaces the Document by exactly that payload; with
only a per-section payload it sets the named section to the payload content
and leaves the value of every other key unchanged. -/
theorem c4_section_updated_document (st : ClientState) (p0 : PlanObj) (f : Frame)
    (hp : st.plan = some p0) (ht : f.type = "section_updated") :
    (∀ fp, f.full_plan = some fp → (handleWsMessage f st).plan = some fp) ∧
    (f.full_plan = none →
      (handleWsMessage f st).plan =
        some (setKey f.sectionKey f.updated_content p0) ∧
      lookupKey f.sectionKey (setKey f.sectionKey f.updated_content p0) =
        some f.updated_content ∧
      ∀ k, k ≠ f.sectionKey →
        lookupKey k (setKey f.sectionKey f.updated_content p0) = lookupKey k p0) := by
  rw [handleWsMessage_section_updated f st ht]
  constructor
  · intro fp hfp
    simp [hfp]
  · intro hfp
    refine ⟨by simp [hfp, hp], ?_, ?_⟩
    · rw [lookupKey_setKey]
      simp
    · intro k hk
      rw [lookupKey_setKey]
      simp [hk]

/-- Witness for C4: updating the `leadership` section of `planW` stores the
new content under `leadership` and leaves `overview` untouched. -/
theorem c4_witness :
    (handleWsMessage leadFrame stPlan).plan =
      some (setKey "leadership" (Val.str "adds CTO") planW) ∧
    lookupKey "leadership" (setKey "leadership" (Val.str "adds CTO") planW) =
      some (Val.str "adds CTO") ∧
    lookupKey "overview" (setKey "leadership" (Val.str "adds CTO") planW) =
      lookupKey "overview" planW := by
  obtain ⟨hfull, hsec⟩ := c4_section_updated_document stPlan planW leadFrame rfl rfl
  obtain ⟨h1, h2, h3⟩ := hsec rfl
  exact ⟨h1, h2, h3 "overview" (by decide)⟩

/-- C2: each `message` event appends its delta to the accumulation buffer
and then either overwrites the last message's content with the full buffer
(when that message has role assistant) or appends a new assistant message
whose initial content is the delta alone; consequently, starting from an
empty buffer, after any non-empty sequence of deltas the last message is an
assistant message whose content is exactly the concatenation of the deltas
in delivery order. -/
theorem c2_delta_accumulation (ds : List String) (st : ClientState)
    (h0 : st.buffer = "") (hne : ds ≠ []) :
    (∀ (d : String) (s : ClientState), handleWsMessage (msgFrame d) s =
      { s with
        buffer := s.buffer ++ d
        messages :=
          if lastIsAssistant s.messages then setLastContent (s.buffer ++ d) s.messages
          else s.messages ++ [⟨Role.assistant, d, none⟩] }) ∧
    (foldFrames (ds.map msgFrame) st).buffer = concatAll ds ∧
    ∃ m, (foldFrames (ds.map msgFrame) st).messages.getLast? = some m ∧
      m.role = Role.assistant ∧ m.content = concatAll ds := by
  refine ⟨fun d s => by rw [handleWsMessage_message (msgFrame d) s rfl]; simp [msgFrame], ?_⟩
  cases ds with
  | nil => exact absurd rfl hne
  | cons d rest =>
    rw [List.map_cons, foldFrames_cons]
    have hbuf1 : (handleWsMessage (msgFrame d) st).buffer = d := by
      rw [handleWsMessage_message (msgFrame d) st rfl]
      show st.buffer ++ (msgFrame d).content = d
      rw [h0]
      exact String.empty_append d
    have hexist : ∃ m1, (handleWsMessage (msgFrame d) st).messages.getLast? = some m1 ∧
        m1.role = Role.assistant ∧
        m1.content = (handleWsMessage (msgFrame d) st).buffer := by
      by_cases hla : lastIsAssistant st.messages = true
      · obtain ⟨m0, hm0, hr0⟩ := exists_of_lastIsAssistant st.messages hla
        refine ⟨{ m0 with content := st.buffer ++ d }, ?_, hr0, ?_⟩
        · rw [handleWsMessage_message (msgFrame d) st rfl]
          show (if lastIsAssistant st.messages then
              setLastContent (st.buffer ++ (msgFrame d).content) st.messages
            else st.messages ++ [⟨Role.assistant, (msgFrame d).content, none⟩]).getLast? = _
          rw [if_pos hla]
          exact setLastContent_getLast? (st.buffer ++ d) st.messages m0 hm0
        · rw [hbuf1, h0]
          exact String.empty_append d
      · refine ⟨⟨Role.assistant, d, none⟩, ?_, rfl, ?_⟩
        · rw [handleWsMessage_message (msgFrame d) st rfl]
          show (if lastIsAssistant st.messages then
              setLastContent (st.buffer ++ (msgFrame d).content) st.messages
            else st.messages ++ [⟨Role.assistant, (msgFrame d).content, none⟩]).getLast? = _
          rw [if_neg hla]
          exact List.getLast?_concat st.messages
        · rw [hbuf1]
    obtain ⟨m1, hm1, hr1, hc1⟩ := hexist
    obtain ⟨ihb, m', hl', hr', hc'⟩ :=
      deltas_extend rest (handleWsMessage (msgFrame d) st) m1 hm1 hr1 hc1
    refine ⟨?_, m', hl', hr', ?_⟩
    · rw [ihb, hbuf1]
      rfl
    · rw [hc', hbuf1]
      rfl

/-- Witness for C2: the spec scenario — three deltas streamed after a user
message accumulate to exactly `Starting research on Stripe...`. -/
theorem c2_witness :
    (foldFrames (["Start", "ing research", " on Stripe..."].map msgFrame) stIdle).buffer =
      "Starting research on Stripe..." ∧
    ∃ m, (foldFrames (["Start", "ing research", " on Stripe..."].map msgFrame)
        stIdle).messages.getLast? = some m ∧
      m.role = Role.assistant ∧ m.content = "Starting research on Stripe..." := by
  obtain ⟨_, hbuf, hex⟩ :=
    c2_delta_accumulation ["Start", "ing research", " on Stripe..."] stIdle rfl (by decide)
  have hc : concatAll ["Start", "ing research", " on Stripe..."] =
      "Starting research on Stripe..." := rfl
  rw [hc] at hbuf hex
  exact ⟨hbuf, hex⟩

/-- C3: processing a `done` frame always empties the accumulation buffer,
clears Progress and sets the generation-in-flight flag false; and the buffer
is written to empty only in the `done` case and at the start of an outbound
send — every other inbound case preserves the buffer (the `message` case
appends to it), and `submitEdit` and the session-switch reset never touch
it. -/
theorem c3_buffer_reset_discipline :
    (∀ st : ClientState,
      (handleWsMessage doneFrame st).buffer = "" ∧
      (handleWsMessage doneFrame st).progress = none ∧
      (handleWsMessage doneFrame st).isLoading = false) ∧
    (∀ (st : ClientState) (f : Frame), f.type ≠ "done" →
      (handleWsMessage f st).buffer =
        if f.type = "message" then st.buffer ++ f.content else st.buffer) ∧
    (∀ (st : ClientState) (c : Bool),
      (sendMessage c st).buffer =
        if strTrim st.input = "" ∨ c = false then st.buffer else "") ∧
    (∀ (st : ClientState) (c : Bool), (submitEdit c st).buffer = st.buffer) ∧
    (∀ st : ClientState, (resetOnSwitch st).buffer = st.buffer) := by
  refine ⟨?_, ?_, ?_, ?_, fun st => rfl⟩
  · intro st
    rw [handleWsMessage_done doneFrame st rfl]
    exact ⟨rfl, rfl, rfl⟩
  · intro st f h6
    by_cases h1 : f.type = "message"
    · rw [handleWsMessage_message f st h1, if_pos h1]
    · rw [if_neg h1]
      by_cases h2 : f.type = "status"
      · rw [handleWsMessage_status f st h2]
      · by_cases h3 : f.type = "conflicts"
        · rw [handleWsMessage_conflicts f st h3]
        · by_cases h4 : f.type = "plan_complete"
          · rw [handleWsMessage_plan_complete f st h4]
          · by_cases h5 : f.type = "section_updated"
            · rw [handleWsMessage_section_updated f st h5]
            · by_cases h7 : f.type = "error"
              · rw [handleWsMessage_error f st h7]
              · rw [handleWsMessage_default f st h1 h2 h3 h4 h5 h6 h7]
  · intro st c
    by_cases hg : strTrim st.input = "" ∨ c = false
    · simp [sendMessage, hg]
    · simp [sendMessage, hg]
  · intro st c
    by_cases hg : strTrim st.editInput = "" ∨ c = false
    · simp [submitEdit, hg]
    · simp [submitEdit, hg]

/-- Witness for C3: `done` from a mid-stream busy state clears the buffer
and Progress; a `status` frame preserves the buffer; an actual outbound send
from a typed-input state clears the buffer. -/
theorem c3_witness :
    (handleWsMessage doneFrame stStream).buffer = "" ∧
    (handleWsMessage doneFrame stStream).progress = none ∧
    (handleWsMessage doneFrame stStream).isLoading = false ∧
    (handleWsMessage statusFrame stStream).buffer = stStream.buffer ∧
    (sendMessage true stTyped).buffer = "" := by
  obtain ⟨hdone, hother, hsend, _, _⟩ := c3_buffer_reset_discipline
  obtain ⟨hd1, hd2, hd3⟩ := hdone stStream
  have hs := hother stStream statusFrame (by decide)
  rw [if_neg (by decide)] at hs
  have hm := hsend stTyped true
  rw [if_neg (by decide)] at hm
  exact ⟨hd1, hd2, hd3, hs, hm⟩

/-- C1 counterexample: inbound frames carry no session identifier and the
shared handler performs no session check, so nothing in the client
"discards" old-session events — if the platform hands a late frame from
session A's socket to its still-registered callback after the switch to B
(which §4.1 of the transport contract itself allows), the handler mutates
the state now observed for B: here B's message list changes. -/
theorem c1_counterexample :
    (socketOnMessage "A" (msgFrame "stale delta")
        (switchTo "B" ⟨"A", ["A"], stIdle⟩)).st.messages ≠
      (switchTo "B" ⟨"A", ["A"], stIdle⟩).st.messages := by
  decide

/-- C1 (amended): the client performs no tag-based discarding; its only
protection is that switching to B closes every other session's socket, so
under the transport discipline in which a closed socket never invokes its
callback again, a frame arriving on old session A's socket after the switch
to B leaves the whole model — in particular B's state — unchanged. -/
theorem c1_amended (m : AppModel) (a b : String) (f : Frame) (hab : a ≠ b) :
    (switchTo b m).openSockets = [b] ∧
    deliverFrameFrom a f (switchTo b m) = switchTo b m := by
  refine ⟨rfl, ?_⟩
  unfold deliverFrameFrom
  rw [if_neg]
  simp [switchTo, hab]

/-- Witness for the amended C1 at concrete sessions A ≠ B. -/
theorem c1_witness :
    deliverFrameFrom "A" (msgFrame "stale delta")
        (switchTo "B" ⟨"A", ["A"], stIdle⟩) =
      switchTo "B" ⟨"A", ["A"], stIdle⟩ :=
  (c1_amended ⟨"A", ["A"], stIdle⟩ "A" "B" (msgFrame "stale delta") (by decide)).2

/-- C7 counterexample: the claim says an unexpected closure leads to an
automatic reconnect after a fixed delay, but the connection opened by the
current client's session-switch effect schedules no reconnection at all in
its `onclose` handler. -/
theorem c7_counterexample :
    (appConnect "A").reconnectDelayMs = none ∧
    ((appConnect "A").reconnectDelayMs).isSome = false := by
  decide

/-- C7 (amended): the current client (App.jsx) never reconnects on closure —
its `onclose` only logs, and a new connection is opened only when the active
session changes; the earlier client version (src/unnamed/part_001)
schedules a reconnect to the same captured session after a fixed 2000 ms on
every closure, deliberate or not, with no check that the session is still
the active one. -/
theorem c7_amended (sid : String) :
    (appConnect sid).reconnectDelayMs = none ∧
    (connectWs sid).reconnectDelayMs = some 2000 ∧
    (connectWs sid).session = sid :=
  ⟨rfl, rfl, rfl⟩

/-- C8 counterexample: from the invariant-satisfying initial state (no
document), a per-section `section_updated` frame spreads into the null plan
(`{...null, [section]: content}`) and produces a Document containing only
the named section, violating "fully absent or fully present". -/
theorem c8_counterexample :
    docInvB st0 = true ∧
    docInvB (handleWsMessage secFrame st0) = false := by
  decide

/-- C8 (amended): the absent-or-full Document invariant is preserved by
every inbound frame, provided full-document payloads (`plan_complete`'s
plan, `section_updated`'s `full_plan`) are full and a per-section
`section_updated` does not arrive while the Document is absent; that last
case is the violation exhibited by the counterexample. -/
theorem c8_amended (st : ClientState) (f : Frame)
    (hinv : docInvB st = true)
    (hpc : f.type = "plan_complete" → fullDoc f.plan = true)
    (hfp : ∀ fp, f.full_plan = some fp → fullDoc fp = true)
    (hsec : f.type = "section_updated" → f.full_plan = none → st.plan ≠ none) :
    docInvB (handleWsMessage f st) = true := by
  by_cases h1 : f.type = "message"
  · rw [handleWsMessage_message f st h1]
    exact (docInvB_congr st _ rfl).trans hinv
  · by_cases h2 : f.type = "status"
    · rw [handleWsMessage_status f st h2]
      exact (docInvB_congr st _ rfl).trans hinv
    · by_cases h3 : f.type = "conflicts"
      · rw [handleWsMessage_conflicts f st h3]
        exact (docInvB_congr st _ rfl).trans hinv
      · by_cases h4 : f.type = "plan_complete"
        · rw [handleWsMessage_plan_complete f st h4]
          simp only [docInvB]
          exact hpc h4
        · by_cases h5 : f.type = "section_updated"
          · rw [handleWsMessage_section_updated f st h5]
            cases hful : f.full_plan with
            | some fp =>
              simp only [docInvB, hful]
              exact hfp fp hful
            | none =>
              cases hp : st.plan with
              | none => exact absurd hp (hsec h5 hful)
              | some p0 =>
                simp only [docInvB, hful, hp, Option.getD_some]
                have hfull : fullDoc p0 = true := by
                  simp only [docInvB, hp] at hinv
                  exact hinv
                exact fullDoc_setKey p0 f.sectionKey f.updated_content hfull
          · by_cases h6 : f.type = "done"
            · rw [handleWsMessage_done f st h6]
              exact (docInvB_congr st _ rfl).trans hinv
            · by_cases h7 : f.type = "error"
              · rw [handleWsMessage_error f st h7]
                exact (docInvB_congr st _ rfl).trans hinv
              · rw [handleWsMessage_default f st h1 h2 h3 h4 h5 h6 h7]
                exact hinv

/-- Witness for the amended C8: a per-section update of `leadership` on a
state already holding the full document keeps the Document full. -/
theorem c8_witness : docInvB (handleWsMessage secFrame stFull) = true :=
  c8_amended stFull secFrame (by decide)
    (fun h => absurd h (by decide))
    (fun _ h => Option.noConfusion h)
    (fun _ _ h => Option.noConfusion h)

/-- C9 counterexample: the de-duplication of `onresult` compares only
against the immediately previously committed final transcript, so for the
event sequence final "a", final "b", final "a" within one listening session
the transcript "a" is committed to the composition buffer twice. -/
theorem c9_counterexample :
    commitsOf [evA, evB, evA] vs0 = ["a", "b", "a"] ∧
    ¬ (commitsOf [evA, evB, evA] vs0).Nodup := by
  decide

/-- C9 (amended): each finalized concatenation is committed only if it is
non-empty and differs from the immediately previously committed one — the
committed transcripts form a chain of adjacent-distinct values seeded by the
current buffer — and an event carrying only interim (non-final) results
commits nothing; a repeat of an earlier, non-adjacent final transcript is
committed again, as the counterexample shows. -/
theorem c9_amended (evs : List (List SpeechRes)) (vs : VoiceState) :
    List.Chain (fun x y => x ≠ y) vs.finalTranscriptBuffer (commitsOf evs vs) ∧
    ∀ rs, (∀ r ∈ rs, r.isFinal = false) → onresult rs vs = vs := by
  refine ⟨commitsOf_chain evs vs, fun rs h => ?_⟩
  have hnf := newFinalOf_interim rs h
  simp only [onresult]
  exact if_neg (fun hc => hc.1 hnf)

/-- Witness for the amended C9: the commits of the "a", "b", "a" session
form an adjacent-distinct chain from the empty buffer, and a purely interim
event leaves the voice state unchanged. -/
theorem c9_witness :
    List.Chain (fun x y => x ≠ y) vs0.finalTranscriptBuffer
      (commitsOf [evA, evB, evA] vs0) ∧
    onresult evInterim vs0 = vs0 := by
  obtain ⟨hchain, hint⟩ := c9_amended [evA, evB, evA] vs0
  exact ⟨hchain, hint evInterim (by decide)⟩

end CompanyResearch
